import Mathlib

/-!
Verification of the strategy-racing sitemap acquisition engine
(`fetchSitemapTextRaced` and its helpers from the sitemap fetching module).

The asynchronous code is shallowly embedded: one race is modelled as a fold
over an explicit list of scheduler events — a strategy's promise chain
settling, the overall deadline timer firing, or the external cancellation
signal firing — processed atomically in event order, exactly as the
single-threaded event loop processes the corresponding handlers.  Pure
helpers (`isLikelySitemapXml`, the timeout clamps, the error-message
normalisation of `fetchTextWithTimeout`) are embedded directly as functions.
-/

deriving instance DecidableEq for Except

namespace SitemapRace

/-- Whitespace recognised by JavaScript `String.prototype.trim` and by the
regex class `\s` (ECMAScript WhiteSpace together with LineTerminator). -/
def jsWhitespace (c : Char) : Bool :=
  c == ' ' || c == '\t' || c == '\n' || c == '\r' || c == '\x0b' || c == '\x0c' ||
  c == '\u00a0' || c == '\u1680' || ('\u2000' ≤ c && c ≤ '\u200a') ||
  c == '\u2028' || c == '\u2029' || c == '\u202f' || c == '\u205f' ||
  c == '\u3000' || c == '\ufeff'

/-- JavaScript `s.trim()` acting on the character list of the string. -/
def jsTrimList (s : List Char) : List Char :=
  ((s.dropWhile jsWhitespace).reverse.dropWhile jsWhitespace).reverse

/-- Regex class `\w`, i.e. `[A-Za-z0-9_]`. -/
def isWordChar (c : Char) : Bool := c.isAlpha || c.isDigit || c == '_'

/-- Regex class `[\w.-]` used for the optional XML-namespace part. -/
def isNameCont (c : Char) : Bool := isWordChar c || c == '.' || c == '-'

/-- Case-insensitive literal match: `pat` is given in lower case; on success
returns the remaining input after the literal. -/
def matchCI : List Char → List Char → Option (List Char)
  | [], rest => some rest
  | _, [] => none
  | t :: ts, c :: cs => if c.toLower == t then matchCI ts cs else none

/-- Word boundary `\b` placed after a word character: holds at end of input
or when the next character is not a `\w` character. -/
def boundaryAfter : List Char → Bool
  | [] => true
  | c :: _ => !isWordChar c

/-- Matches `(urlset|sitemapindex)\b` case-insensitively at the head. -/
def matchTagAt (cs : List Char) : Bool :=
  (match matchCI ("urlset".data) cs with
   | some rest => boundaryAfter rest
   | none => false) ||
  (match matchCI ("sitemapindex".data) cs with
   | some rest => boundaryAfter rest
   | none => false)

/-- Matches `\s*(?:[A-Za-z_][\w.-]*:)?(urlset|sitemapindex)\b` at the head,
i.e. the part of the sitemap regex that follows the `<`.  The starred
whitespace is maximal-munch (no branch can start with a whitespace
character), and the optional namespace group is deterministic because `:`
is not in `[\w.-]`. -/
def afterLt (cs0 : List Char) : Bool :=
  let cs := cs0.dropWhile jsWhitespace
  matchTagAt cs ||
  (match cs with
   | [] => false
   | c :: rest =>
     if c.isAlpha || c == '_' then
       match rest.dropWhile isNameCont with
       | ':' :: rest2 => matchTagAt rest2
       | _ => false
     else false)

/-- Scans the whole input for a match of the sitemap regex. -/
def likelyScan : List Char → Bool
  | [] => false
  | c :: rest => (c == '<' && afterLt rest) || likelyScan rest

/-- Embedding of `isLikelySitemapXml`: tests the regex
`<\s*(?:[A-Za-z_][\w.-]*:)?(urlset|sitemapindex)\b` with the `i` flag
anywhere in the text.  This is the validation gate of the race. -/
def isLikelySitemapXml (text : String) : Bool := likelyScan text.data

/-- JavaScript `Math.round(ms / 1000)` for a nonnegative integer `ms`. -/
def jsRound1000 (ms : Nat) : Nat := (ms + 500) / 1000

/-- The normalised message thrown by `fetchTextWithTimeout` for an
abort-shaped rejection: `timeout after Ns`. -/
def timeoutMessage (timeoutMs : Nat) : String :=
  "timeout after " ++ toString (jsRound1000 timeoutMs) ++ "s"

/-- Substring test on character lists. -/
def hasSub (pat : List Char) : List Char → Bool
  | [] => pat.isEmpty
  | c :: rest => pat.isPrefixOf (c :: rest) || hasSub pat rest

/-- Embedding of the test `/aborted|abort/i.test(msg)`: since `aborted`
contains `abort`, this is exactly a case-insensitive substring test for
`abort`. -/
def abortShaped (msg : String) : Bool :=
  hasSub ("abort".data) (msg.data.map Char.toLower)

/-- JavaScript `Response.ok`: status in the range 200–299. -/
def httpStatusOk (status : Nat) : Bool := 200 ≤ status && status < 300

/-- How the underlying `fetch` call of one timed invocation settled: either
a response arrived (with a status and a body), or the call rejected with a
message.  A firing of the invocation's own deadline timer and a firing of
the linked shared cancellation signal both surface as a rejection whose
message is abort-shaped (a `DOMException` such as
`The operation was aborted.`). -/
inductive FetchOutcome where
  | response (status : Nat) (body : String)
  | rejected (msg : String)
deriving Repr, DecidableEq

/-- Result of one timed invocation: the settled value of the returned
promise, plus whether the `finally` block cleared the per-invocation
deadline timer and unlinked the shared signal. -/
structure TimedFetchResult where
  result : Except String String
  timerCleared : Bool
  unlinked : Bool

/-- Embedding of `fetchTextWithTimeout`: a non-2xx response is turned into
an `HTTP <status>` error; the catch block rewrites any abort-shaped
rejection message into `timeout after Ns` and re-throws every other
rejection unchanged; the `finally` block always clears the deadline timer
and unlinks the shared signal. -/
def fetchTextWithTimeout (timeoutMs : Nat) (o : FetchOutcome) : TimedFetchResult :=
  let res : Except String String :=
    match o with
    | .response status body =>
      if httpStatusOk status then .ok body
      else
        let m := "HTTP " ++ toString status
        if abortShaped m then .error (timeoutMessage timeoutMs) else .error m
    | .rejected msg =>
      if abortShaped msg then .error (timeoutMessage timeoutMs) else .error msg
  { result := res, timerCleared := true, unlinked := true }

/-- Embedding of `FetchSitemapTextConfig`: both timeouts optional, plus
whether a caller-supplied `AbortSignal` is present.  There is no field
through which strategies could be supplied. -/
structure FetchSitemapTextConfig where
  perStrategyTimeoutMs : Option Nat
  overallTimeoutMs : Option Nat
  signal : Bool
deriving Repr, DecidableEq

/-- Effective per-strategy timeout:
`Math.max(4000, config.perStrategyTimeoutMs ?? 12000)`. -/
def effPerStrategyTimeoutMs (config : FetchSitemapTextConfig) : Nat :=
  max 4000 (config.perStrategyTimeoutMs.getD 12000)

/-- Effective overall timeout:
`Math.max(perStrategyTimeoutMs, config.overallTimeoutMs ?? 15000)`. -/
def effOverallTimeoutMs (config : FetchSitemapTextConfig) : Nat :=
  max (effPerStrategyTimeoutMs config) (config.overallTimeoutMs.getD 15000)

/-- The four hard-coded strategies, in declaration (push) order. -/
def strategyNames : List String := ["API", "Direct", "AllOrigins", "Jina"]

/-- The deadline each strategy passes to `fetchTextWithTimeout`, as a
function of the effective per-strategy timeout: the API route uses
`Math.min(25000, Math.max(perStrategyTimeoutMs, 12000))`, the direct fetch
a fixed `8000`, and the AllOrigins and Jina proxies the effective
per-strategy timeout itself. -/
def strategyDeadlines (perStrategyTimeoutMs : Nat) : List (String × Nat) :=
  [("API", min 25000 (max perStrategyTimeoutMs 12000)),
   ("Direct", 8000),
   ("AllOrigins", perStrategyTimeoutMs),
   ("Jina", perStrategyTimeoutMs)]

/-- Name of the strategy at a given index of the hard-coded list. -/
def nameOf (i : Nat) : String := strategyNames.getD i ""

/-- Winning result of a race: the strategy's name and its text. -/
structure StrategyResult where
  name : String
  text : String
deriving Repr, DecidableEq

/-- One scheduler event during a race, processed atomically by the event
loop: the promise chain of strategy `i` settles (with the text the
strategy produced, or with the rejection message out of its timed
invocation), the overall deadline timer fires, or the external
cancellation signal fires. -/
inductive Ev where
  | settle (i : Nat) (out : Except String String)
  | overallFire
  | externalAbort
deriving Repr, DecidableEq

/-- Mutable state of one race, as held by the closures of
`fetchSitemapTextRaced`: the `done` winner flag and `completed` counter and
`errors` list of the runner, whether `raceAbort.abort()` has been called,
whether the overall deadline timer has been cleared or has fired, and the
settled value of the raced promise (`none` while still pending). -/
structure RaceState where
  done : Bool
  completed : Nat
  errors : List String
  raceAborted : Bool
  overallCleared : Bool
  overallFired : Bool
  resolution : Option (Except String StrategyResult)
deriving Repr, DecidableEq

/-- Initial race state, before any event is processed. -/
def initState : RaceState :=
  { done := false, completed := 0, errors := [], raceAborted := false,
    overallCleared := false, overallFired := false, resolution := none }

/-- Settling the raced promise: a promise settles at most once, so a second
settlement attempt is a no-op. -/
def resolveRace (r : Except String StrategyResult) (st : RaceState) : RaceState :=
  match st.resolution with
  | some _ => st
  | none => { st with resolution := some r }

/-- Calling `raceAbort.abort()` (idempotent). -/
def abortRace (st : RaceState) : RaceState := { st with raceAborted := true }

/-- The rejection message built by `finishRejectIfAllFailed`. -/
def allFailedMessage (errors : List String) : String :=
  "All strategies failed: " ++ String.intercalate " | " errors

/-- The rejection message of the overall deadline timer. -/
def overallTimeoutMessage (overallMs : Nat) : String :=
  "All strategies timed out after " ++ toString (jsRound1000 overallMs) ++ "s"

/-- Processing of one scheduler event, exactly mirroring the handlers in
`fetchSitemapTextRaced`.

A fulfilled strategy chain first checks the `done` flag (late text after a
winner is ignored), then the validation gate: gate-passing text sets
`done`, triggers `raceAbort.abort()` and only then resolves the race;
gate-failing text throws `not sitemap XML`, which the catch handler turns
into an `errors` entry, a `completed` increment and the all-failed check.
A rejected strategy chain goes through the same catch handler with its
rejection message.  The overall timer triggers `raceAbort.abort()` and
rejects with the overall-timeout message.  The external signal first runs
the link handler (`raceAbort.abort()`), then the listener on the overall
timeout promise, which clears the overall timer and rejects with
`Cancelled`. -/
def step (overallMs : Nat) (st : RaceState) : Ev → RaceState
  | .settle i (.ok text) =>
    if st.done then st
    else if isLikelySitemapXml text then
      resolveRace (.ok ⟨nameOf i, text⟩) (abortRace { st with done := true })
    else
      let st1 : RaceState :=
        { st with errors := st.errors ++ [nameOf i ++ ": " ++ "not sitemap XML"],
                  completed := st.completed + 1 }
      if st1.done = false ∧ strategyNames.length ≤ st1.completed then
        resolveRace (.error (allFailedMessage st1.errors)) st1
      else st1
  | .settle i (.error msg) =>
    let st1 : RaceState :=
      { st with errors := st.errors ++ [nameOf i ++ ": " ++ msg],
                completed := st.completed + 1 }
    if st1.done = false ∧ strategyNames.length ≤ st1.completed then
      resolveRace (.error (allFailedMessage st1.errors)) st1
    else st1
  | .overallFire =>
    resolveRace (.error (overallTimeoutMessage overallMs))
      (abortRace { st with overallFired := true })
  | .externalAbort =>
    resolveRace (.error "Cancelled")
      { st with raceAborted := true, overallCleared := true }

/-- Running a race over a whole event trace. -/
def runTrace (overallMs : Nat) (events : List Ev) : RaceState :=
  events.foldl (step overallMs) initState

/-- Observable shape of one call to `fetchSitemapTextRaced`: the settled
value (still `none` if the trace leaves the race pending), which strategies
were launched, and whether the overall deadline timer was started and the
external cancellation wiring created. -/
structure RaceOutput where
  result : Option (Except String StrategyResult)
  launched : List String
  overallTimerStarted : Bool
  cancellationLinked : Bool
deriving Repr

/-- Embedding of `fetchSitemapTextRaced`: trim the target and fail fast on
an empty result; the (unreachable) guard for an empty strategy list; then
run the race over the given event trace with the clamped overall
timeout. -/
def fetchSitemapTextRaced (targetUrl : String) (config : FetchSitemapTextConfig)
    (events : List Ev) : RaceOutput :=
  if jsTrimList targetUrl.data = [] then
    { result := some (.error "URL is required"), launched := [],
      overallTimerStarted := false, cancellationLinked := false }
  else if strategyNames = [] then
    { result := some (.error "No fetch strategies available"), launched := [],
      overallTimerStarted := false, cancellationLinked := true }
  else
    { result := (runTrace (effOverallTimeoutMs config) events).resolution,
      launched := strategyNames,
      overallTimerStarted := true, cancellationLinked := true }

/-- Index of the strategy a settlement event belongs to. -/
def settleIdx : Ev → Option Nat
  | .settle i _ => some i
  | .overallFire => none
  | .externalAbort => none

/-- A settlement that does not declare a winner: either the strategy's
chain rejected, or it fulfilled with text that fails the validation gate. -/
def isFailingSettle : Ev → Bool
  | .settle _ (.error _) => true
  | .settle _ (.ok t) => !isLikelySitemapXml t
  | .overallFire => false
  | .externalAbort => false

/-- The `errors` entry a failing settlement pushes (`name: reason`). -/
def failEntry : Ev → Option String
  | .settle i (.error msg) => some (nameOf i ++ ": " ++ msg)
  | .settle i (.ok t) =>
    if isLikelySitemapXml t then none
    else some (nameOf i ++ ": " ++ "not sitemap XML")
  | .overallFire => none
  | .externalAbort => none

/-- The shapes a rejection message of the raced promise can take: the
all-failed aggregate, the overall-timeout message, or `Cancelled`. -/
def goodMessage (overallMs : Nat) (m : String) : Prop :=
  (∃ errs, m = allFailedMessage errs) ∨ m = overallTimeoutMessage overallMs ∨ m = "Cancelled"

theorem strategyNames_length : strategyNames.length = 4 := rfl

theorem resolveRace_isSome (r : Except String StrategyResult) (st : RaceState) :
    ((resolveRace r st).resolution).isSome = true := by
  unfold resolveRace
  split
  · rename_i r' h
    simp [h]
  · simp

theorem resolveRace_of_none (r : Except String StrategyResult) (st : RaceState)
    (h : st.resolution = none) : (resolveRace r st).resolution = some r := by
  unfold resolveRace
  split
  · rename_i r' h'
    rw [h] at h'
    exact absurd h' (by simp)
  · simp

theorem resolveRace_of_some (r r' : Except String StrategyResult) (st : RaceState)
    (h : st.resolution = some r') : resolveRace r st = st := by
  unfold resolveRace
  split
  · rfl
  · rename_i h'
    rw [h] at h'
    exact absurd h' (by simp)

/-- A settled race promise never changes its value again, whatever event is
processed next. -/
theorem step_preserves_some (overallMs : Nat) (st : RaceState) (e : Ev)
    (r : Except String StrategyResult) (h : st.resolution = some r) :
    (step overallMs st e).resolution = some r := by
  cases e with
  | settle i out =>
    cases out with
    | ok text =>
      simp only [step]
      split
      · exact h
      · split
        · rw [resolveRace_of_some _ r _ (by simpa [abortRace] using h)]
          simpa [abortRace] using h
        · split
          · rw [resolveRace_of_some _ r _ (by simpa using h)]
            simpa using h
          · simpa using h
    | error msg =>
      simp only [step]
      split
      · rw [resolveRace_of_some _ r _ (by simpa using h)]
        simpa using h
      · simpa using h
  | overallFire =>
    simp only [step]
    rw [resolveRace_of_some _ r _ (by simpa [abortRace] using h)]
    simpa [abortRace] using h
  | externalAbort =>
    simp only [step]
    rw [resolveRace_of_some _ r _ (by simpa using h)]
    simpa using h

theorem fold_preserves_some (overallMs : Nat) (evs : List Ev) (st : RaceState)
    (r : Except String StrategyResult) (h : st.resolution = some r) :
    (evs.foldl (step overallMs) st).resolution = some r := by
  induction evs generalizing st with
  | nil => exact h
  | cons e rest ih => exact ih _ (step_preserves_some overallMs st e r h)

theorem runTrace_append (overallMs : Nat) (l1 l2 : List Ev) :
    runTrace overallMs (l1 ++ l2) = l2.foldl (step overallMs) (runTrace overallMs l1) := by
  simp [runTrace, List.foldl_append]

/-- State invariant: the `done` winner flag is only ever set together with a
settlement of the raced promise. -/
theorem step_done_imp_some (overallMs : Nat) (st : RaceState) (e : Ev)
    (h : st.done = true → st.resolution.isSome = true) :
    (step overallMs st e).done = true → (step overallMs st e).resolution.isSome = true := by
  cases e with
  | settle i out =>
    cases out with
    | ok text =>
      simp only [step]
      split
      · exact h
      · split
        · intro _
          exact resolveRace_isSome _ _
        · split
          · intro _
            exact resolveRace_isSome _ _
          · rename_i hdone _ _
            intro hd
            simp only [Bool.not_eq_true] at hdone
            simp only at hd
            rw [hdone] at hd
            exact absurd hd (by simp)
    | error msg =>
      simp only [step]
      split
      · intro _
        exact resolveRace_isSome _ _
      · intro hd
        simp only at hd
        have := h hd
        simpa using this
  | overallFire =>
    simp only [step]
    intro hd
    exact resolveRace_isSome _ _
  | externalAbort =>
    simp only [step]
    intro hd
    exact resolveRace_isSome _ _

theorem runTrace_done_imp_some (overallMs : Nat) (evs : List Ev) :
    (runTrace overallMs evs).done = true → (runTrace overallMs evs).resolution.isSome = true := by
  suffices h : ∀ st : RaceState, (st.done = true → st.resolution.isSome = true) →
      ((evs.foldl (step overallMs) st).done = true →
       (evs.foldl (step overallMs) st).resolution.isSome = true) by
    exact h initState (by intro hc; exact absurd hc (by simp [initState]))
  induction evs with
  | nil => intro st h; exact h
  | cons e rest ih =>
    intro st h
    exact ih _ (step_done_imp_some overallMs st e h)

theorem runTrace_none_done_false (overallMs : Nat) (evs : List Ev)
    (h : (runTrace overallMs evs).resolution = none) :
    (runTrace overallMs evs).done = false := by
  by_contra hc
  simp only [Bool.not_eq_false] at hc
  have := runTrace_done_imp_some overallMs evs hc
  rw [h] at this
  exact absurd this (by simp)

theorem filterMap_cons_toList (e : Ev) (rest : List Ev) :
    (e :: rest).filterMap failEntry = (failEntry e).toList ++ rest.filterMap failEntry := by
  cases h : failEntry e with
  | none => simp [List.filterMap_cons_none h, h]
  | some b => simp [List.filterMap_cons_some h, h]

/-- Processing a failing settlement from a pending race state: the entry is
pushed, the counter is incremented, and the all-failed rejection fires
exactly when the counter reaches the number of strategies. -/
theorem step_failing (overallMs : Nat) (st : RaceState) (e : Ev)
    (hf : isFailingSettle e = true) (hd : st.done = false) (hr : st.resolution = none) :
    step overallMs st e =
      { st with
          completed := st.completed + 1,
          errors := st.errors ++ (failEntry e).toList,
          resolution :=
            if 4 ≤ st.completed + 1 then
              some (.error (allFailedMessage (st.errors ++ (failEntry e).toList)))
            else none } := by
  cases e with
  | settle i out =>
    cases out with
    | ok text =>
      have hg : isLikelySitemapXml text = false := by
        simpa [isFailingSettle] using hf
      simp only [step, hd, hg, failEntry, Option.toList, Bool.false_eq_true, if_false,
        strategyNames_length, true_and]
      by_cases h4 : 4 ≤ st.completed + 1
      · rw [if_pos (by simpa [hd] using h4), if_pos h4]
        simp [resolveRace, hr]
      · rw [if_neg (by simpa [hd] using h4), if_neg h4]
        simp [hr]
    | error msg =>
      simp only [step, failEntry, Option.toList, strategyNames_length, true_and]
      by_cases h4 : 4 ≤ st.completed + 1
      · rw [if_pos (by simpa [hd] using h4), if_pos h4]
        simp [resolveRace, hr, hd]
      · rw [if_neg (by simp [hd, h4]), if_neg h4]
        simp [hr, hd]
  | overallFire => exact absurd hf (by simp [isFailingSettle])
  | externalAbort => exact absurd hf (by simp [isFailingSettle])

/-- Folding a race over a list of failing settlements: the state stays
pending until the counter reaches four, at which point the race rejects
with the aggregated message; the `errors` list is exactly the `name: reason`
entries in processing order. -/
theorem foldFailing (overallMs : Nat) (evs : List Ev) :
    ∀ st : RaceState,
    (∀ e ∈ evs, isFailingSettle e = true) →
    st.done = false → st.resolution = none → st.completed + evs.length ≤ 4 →
    (evs.foldl (step overallMs) st).done = false ∧
    (evs.foldl (step overallMs) st).completed = st.completed + evs.length ∧
    (evs.foldl (step overallMs) st).errors = st.errors ++ evs.filterMap failEntry ∧
    (evs.foldl (step overallMs) st).resolution =
      (if st.completed + evs.length = 4 ∧ evs ≠ [] then
        some (.error (allFailedMessage (st.errors ++ evs.filterMap failEntry)))
       else none) := by
  induction evs with
  | nil =>
    intro st _ hd hr _
    simp [hd, hr]
  | cons e rest ih =>
    intro st hall hd hr hbound
    have hfe : isFailingSettle e = true := hall e (by simp)
    have hrest : ∀ x ∈ rest, isFailingSettle x = true := fun x hx => hall x (by simp [hx])
    have hlen : st.completed + 1 + rest.length ≤ 4 := by
      simp only [List.length_cons] at hbound
      omega
    rw [List.foldl_cons, step_failing overallMs st e hfe hd hr]
    by_cases h4 : 4 ≤ st.completed + 1
    · have hc4 : st.completed + 1 = 4 := by omega
      have hrest0 : rest = [] := by
        have : rest.length = 0 := by omega
        exact List.length_eq_zero.mp this
      subst hrest0
      refine ⟨by simp [hd], by simp [List.length_cons], ?_, ?_⟩
      · simp [filterMap_cons_toList]
      · simp only [List.foldl_nil, if_pos h4]
        have hcond : st.completed + (e :: ([] : List Ev)).length = 4 ∧ e :: ([] : List Ev) ≠ [] := by
          simp [List.length_cons]
          omega
        rw [if_pos hcond]
        simp [filterMap_cons_toList]
    · have hres1 :
          (if 4 ≤ st.completed + 1 then
            some (Except.error (allFailedMessage (st.errors ++ (failEntry e).toList)))
           else (none : Option (Except String StrategyResult))) = none := if_neg h4
      rw [hres1]
      have := ih
        { st with
            completed := st.completed + 1,
            errors := st.errors ++ (failEntry e).toList,
            resolution := none }
        hrest (by simp [hd]) rfl (by simp; omega)
      rcases this with ⟨hdone, hcomp, herr, hres⟩
      refine ⟨hdone, ?_, ?_, ?_⟩
      · rw [hcomp]
        simp [List.length_cons]
        omega
      · rw [herr]
        simp [filterMap_cons_toList, List.append_assoc]
      · rw [hres]
        by_cases hsum : st.completed + 1 + rest.length = 4
        · have hne : rest ≠ [] := by
            intro h0
            rw [h0] at hsum
            simp at hsum
            omega
          have hcond1 : ({ st with
              completed := st.completed + 1,
              errors := st.errors ++ (failEntry e).toList,
              resolution := (none : Option (Except String StrategyResult)) } :
              RaceState).completed + rest.length = 4 ∧ rest ≠ [] := ⟨by simpa using hsum, hne⟩
          have hcond2 : st.completed + (e :: rest).length = 4 ∧ e :: rest ≠ [] := by
            refine ⟨?_, by simp⟩
            simp [List.length_cons]
            omega
          rw [if_pos hcond1, if_pos hcond2]
          simp [filterMap_cons_toList, List.append_assoc]
        · have hcond1 : ¬(({ st with
              completed := st.completed + 1,
              errors := st.errors ++ (failEntry e).toList,
              resolution := (none : Option (Except String StrategyResult)) } :
              RaceState).completed + rest.length = 4 ∧ rest ≠ []) := by
            intro hc
            exact hsum (by simpa using hc.1)
          have hcond2 : ¬(st.completed + (e :: rest).length = 4 ∧ e :: rest ≠ []) := by
            intro hc
            have := hc.1
            simp [List.length_cons] at this
            omega
          rw [if_neg hcond1, if_neg hcond2]

theorem length_filterMap_all_some {α β : Type} (f : α → Option β) :
    ∀ l : List α, (∀ e ∈ l, (f e).isSome = true) → (l.filterMap f).length = l.length := by
  intro l
  induction l with
  | nil => simp
  | cons a rest ih =>
    intro h
    have ha := h a (by simp)
    cases hfa : f a with
    | none =>
      rw [hfa] at ha
      exact absurd ha (by simp)
    | some b =>
      rw [List.filterMap_cons_some hfa]
      simp only [List.length_cons]
      rw [ih (fun e he => h e (by simp [he]))]

theorem failing_settleIdx_isSome (e : Ev) (h : isFailingSettle e = true) :
    (settleIdx e).isSome = true := by
  cases e with
  | settle i out => simp [settleIdx]
  | overallFire => simp [isFailingSettle] at h
  | externalAbort => simp [isFailingSettle] at h

theorem nodup_lt4_length_le (l : List Nat) (hn : l.Nodup) (hb : ∀ x ∈ l, x < 4) :
    l.length ≤ 4 := by
  have hsub : l.toFinset ⊆ Finset.range 4 := by
    intro x hx
    rw [List.mem_toFinset] at hx
    exact Finset.mem_range.mpr (hb x hx)
  have hcard := Finset.card_le_card hsub
  rw [List.toFinset_card_of_nodup hn, Finset.card_range] at hcard
  exact hcard

theorem ne_of_headChar {s t : String} (h : s.data.head? ≠ t.data.head?) : s ≠ t := by
  intro he
  exact h (by rw [he])

theorem allFailedMessage_head (errs : List String) :
    (allFailedMessage errs).data.head? = some 'A' := by
  rw [allFailedMessage, String.data_append]
  rfl

theorem overallTimeoutMessage_head (ms : Nat) :
    (overallTimeoutMessage ms).data.head? = some 'A' := by
  rw [overallTimeoutMessage, String.data_append]
  rfl

/-- Processing a gate-passing settlement from a pending race state: the
winner flag is set, the shared abort is triggered and the race resolves with
that strategy's name and text, all in the same atomic step. -/
theorem step_winner (overallMs : Nat) (st : RaceState) (i : Nat) (t : String)
    (hg : isLikelySitemapXml t = true) (hd : st.done = false) (hr : st.resolution = none) :
    step overallMs st (Ev.settle i (.ok t)) =
      { st with done := true, raceAborted := true,
                resolution := some (.ok ⟨nameOf i, t⟩) } := by
  simp only [step, hd, Bool.false_eq_true, if_false, hg, if_true]
  simp [resolveRace, abortRace, hr]

theorem resolveRace_resolution (r : Except String StrategyResult) (st : RaceState) :
    (resolveRace r st).resolution = some r ∨ (resolveRace r st).resolution = st.resolution := by
  unfold resolveRace
  split
  · right
    rfl
  · left
    rfl

/-- Any single step either leaves the raced promise as it was, or settles it
with a winner, the all-failed aggregate, the overall-timeout rejection, or
the `Cancelled` rejection. -/
theorem step_resolution_cases (overallMs : Nat) (st : RaceState) (e : Ev) :
    (step overallMs st e).resolution = st.resolution ∨
    (∃ res, (step overallMs st e).resolution = some (.ok res)) ∨
    (∃ errs, (step overallMs st e).resolution = some (.error (allFailedMessage errs))) ∨
    (step overallMs st e).resolution = some (.error (overallTimeoutMessage overallMs)) ∨
    (step overallMs st e).resolution = some (.error "Cancelled") := by
  cases e with
  | settle i out =>
    cases out with
    | ok text =>
      simp only [step]
      split
      · left
        rfl
      · split
        · rcases resolveRace_resolution (.ok ⟨nameOf i, text⟩)
            (abortRace { st with done := true }) with h | h
          · right
            left
            exact ⟨_, h⟩
          · left
            simpa [abortRace] using h
        · split
          · rcases resolveRace_resolution _ _ with h | h
            · right
              right
              left
              exact ⟨_, h⟩
            · left
              simpa using h
          · left
            rfl
    | error msg =>
      simp only [step]
      split
      · rcases resolveRace_resolution _ _ with h | h
        · right
          right
          left
          exact ⟨_, h⟩
        · left
          simpa using h
      · left
        rfl
  | overallFire =>
    simp only [step]
    rcases resolveRace_resolution _ _ with h | h
    · right
      right
      right
      left
      exact h
    · left
      simpa [abortRace] using h
  | externalAbort =>
    simp only [step]
    rcases resolveRace_resolution _ _ with h | h
    · right
      right
      right
      right
      exact h
    · left
      simpa using h

theorem step_shape (overallMs : Nat) (st : RaceState) (e : Ev)
    (h : ∀ m, st.resolution = some (.error m) → goodMessage overallMs m) :
    ∀ m, (step overallMs st e).resolution = some (.error m) → goodMessage overallMs m := by
  intro m hm
  rcases step_resolution_cases overallMs st e with hc | ⟨res, hc⟩ | ⟨errs, hc⟩ | hc | hc
  · exact h m (hc ▸ hm)
  · rw [hc] at hm
    exact absurd (Option.some.inj hm) (by simp)
  · rw [hc] at hm
    have := Option.some.inj hm
    exact Or.inl ⟨errs, (Except.error.inj this).symm⟩
  · rw [hc] at hm
    exact Or.inr (Or.inl (Except.error.inj (Option.some.inj hm)).symm)
  · rw [hc] at hm
    exact Or.inr (Or.inr (Except.error.inj (Option.some.inj hm)).symm)

/-- Every rejection the race can ever produce is the all-failed aggregate,
the overall-timeout message, or `Cancelled`. -/
theorem runTrace_shape (overallMs : Nat) (evs : List Ev) :
    ∀ m, (runTrace overallMs evs).resolution = some (.error m) → goodMessage overallMs m := by
  suffices hgen : ∀ st : RaceState,
      (∀ m, st.resolution = some (.error m) → goodMessage overallMs m) →
      ∀ m, (evs.foldl (step overallMs) st).resolution = some (.error m) →
        goodMessage overallMs m by
    refine hgen initState ?_
    intro m hm
    exact absurd hm (by simp [initState])
  induction evs with
  | nil => intro st h; exact h
  | cons e rest ih =>
    intro st h
    exact ih _ (step_shape overallMs st e h)

/-- C1: if a strategy settles with gate-passing text while the race is
still unresolved (in particular no winner has been declared), the
coordinator atomically declares it the winner in that very step: the
winner flag is set, the shared internal cancellation (`raceAbort.abort()`)
is triggered before the resolve call, the race resolves with that
strategy's name and text, and no settlement processed afterwards — even a
gate-passing one already queued in the same tick — changes the resolved
result or declares a second winner. -/
theorem C1_winner_atomic (overallMs : Nat) (pre post : List Ev) (i : Nat) (t : String)
    (hpending : (runTrace overallMs pre).resolution = none)
    (hgate : isLikelySitemapXml t = true) :
    (step overallMs (runTrace overallMs pre) (Ev.settle i (.ok t))).done = true ∧
    (step overallMs (runTrace overallMs pre) (Ev.settle i (.ok t))).raceAborted = true ∧
    (step overallMs (runTrace overallMs pre) (Ev.settle i (.ok t))).resolution
      = some (.ok ⟨nameOf i, t⟩) ∧
    (runTrace overallMs (pre ++ Ev.settle i (.ok t) :: post)).resolution
      = some (.ok ⟨nameOf i, t⟩) := by
  have hd : (runTrace overallMs pre).done = false := runTrace_none_done_false _ _ hpending
  have hw := step_winner overallMs (runTrace overallMs pre) i t hgate hd hpending
  refine ⟨by rw [hw], by rw [hw], by rw [hw], ?_⟩
  rw [runTrace_append, List.foldl_cons, hw]
  exact fold_preserves_some overallMs post _ _ rfl

/-- Witness for C1 at a concrete race: the API strategy settles first with
valid text while a second gate-passing settlement is already queued. -/
theorem C1_winner_atomic_witness :
    (step 15000 (runTrace 15000 []) (Ev.settle 0 (.ok "<urlset"))).done = true ∧
    (step 15000 (runTrace 15000 []) (Ev.settle 0 (.ok "<urlset"))).raceAborted = true ∧
    (step 15000 (runTrace 15000 []) (Ev.settle 0 (.ok "<urlset"))).resolution
      = some (.ok ⟨nameOf 0, "<urlset"⟩) ∧
    (runTrace 15000 ([] ++ Ev.settle 0 (.ok "<urlset")
        :: [Ev.settle 1 (.ok "<sitemapindex>")])).resolution
      = some (.ok ⟨nameOf 0, "<urlset"⟩) :=
  C1_winner_atomic 15000 [] [Ev.settle 1 (.ok "<sitemapindex>")] 0 "<urlset" rfl (by decide)

/-- C2: if some strategy eventually settles with gate-passing text, and
before that first gate-passing settlement the only processed events are
failing settlements of the (distinct, existing) other strategies — so the
race is neither externally cancelled nor overall-timed-out first — then the
race resolves with that strategy's name and text, and no individual
strategy failure is ever surfaced to the caller on its own. -/
theorem C2_first_valid_wins (overallMs : Nat) (pre post : List Ev) (i : Nat) (t : String)
    (hgate : isLikelySitemapXml t = true)
    (hpre : ∀ e ∈ pre, isFailingSettle e = true)
    (hnodup : ((pre ++ Ev.settle i (.ok t) :: post).filterMap settleIdx).Nodup)
    (hlt : ∀ j ∈ (pre ++ Ev.settle i (.ok t) :: post).filterMap settleIdx, j < 4) :
    (runTrace overallMs (pre ++ Ev.settle i (.ok t) :: post)).resolution
      = some (.ok ⟨nameOf i, t⟩) ∧
    ∀ m, (runTrace overallMs (pre ++ Ev.settle i (.ok t) :: post)).resolution
      ≠ some (.error m) := by
  have hsome : ∀ e ∈ pre, (settleIdx e).isSome = true :=
    fun e he => failing_settleIdx_isSome e (hpre e he)
  have hsplit : (pre ++ Ev.settle i (.ok t) :: post).filterMap settleIdx
      = pre.filterMap settleIdx ++ i :: post.filterMap settleIdx := by
    rw [List.filterMap_append, List.filterMap_cons_some (by rfl : settleIdx (Ev.settle i (.ok t)) = some i)]
  have hsub : (pre.filterMap settleIdx ++ [i]).Sublist
      (pre.filterMap settleIdx ++ i :: post.filterMap settleIdx) :=
    List.Sublist.append_left (List.cons_sublist_cons.mpr (List.nil_sublist _)) _
  have hnodup2 : (pre.filterMap settleIdx ++ [i]).Nodup := by
    rw [hsplit] at hnodup
    exact hnodup.sublist hsub
  have hlt2 : ∀ x ∈ pre.filterMap settleIdx ++ [i], x < 4 := by
    intro x hx
    refine hlt x ?_
    rw [hsplit]
    exact hsub.mem hx
  have hlen4 : (pre.filterMap settleIdx ++ [i]).length ≤ 4 :=
    nodup_lt4_length_le _ hnodup2 hlt2
  have hprelen : pre.length ≤ 3 := by
    have := length_filterMap_all_some settleIdx pre hsome
    simp only [List.length_append, List.length_cons, List.length_nil] at hlen4
    omega
  have hmid := foldFailing overallMs pre initState hpre rfl rfl
    (by simp only [initState]; omega)
  rcases hmid with ⟨hd, _, _, hr⟩
  have hrnone : (runTrace overallMs pre).resolution = none := by
    rw [runTrace] at *
    rw [hr, if_neg]
    intro hc
    rcases hc with ⟨hc1, _⟩
    simp only [initState] at hc1
    omega
  have hdone : (runTrace overallMs pre).done = false := runTrace_none_done_false _ _ hrnone
  have hw := step_winner overallMs (runTrace overallMs pre) i t hgate hdone hrnone
  have hres : (runTrace overallMs (pre ++ Ev.settle i (.ok t) :: post)).resolution
      = some (.ok ⟨nameOf i, t⟩) := by
    rw [runTrace_append, List.foldl_cons, hw]
    exact fold_preserves_some overallMs post _ _ rfl
  refine ⟨hres, ?_⟩
  intro m hm
  rw [hres] at hm
  exact absurd (Option.some.inj hm) (by simp)

/-- Witness for C2 at a concrete race: Direct fails with HTTP 403, then
AllOrigins returns gate-passing text and wins; API and Jina are still
outstanding. -/
theorem C2_first_valid_wins_witness :
    (runTrace 15000 ([Ev.settle 1 (.error "HTTP 403")]
        ++ Ev.settle 2 (.ok "<urlset>") :: [])).resolution
      = some (.ok ⟨nameOf 2, "<urlset>"⟩) :=
  (C2_first_valid_wins 15000 [Ev.settle 1 (.error "HTTP 403")] [] 2 "<urlset>"
    (by decide) (by decide) (by decide) (by decide)).1

/-- C3: if all four strategies settle without gate-passing text, the race
rejects with the all-failed error, whose message is the aggregate of every
strategy's `name: reason` entry in settlement order joined with a single
consistent separator, and no strategy's reason is dropped: every strategy
index contributes an entry. -/
theorem C3_all_failed_aggregate (overallMs : Nat) (evs : List Ev)
    (hfail : ∀ e ∈ evs, isFailingSettle e = true)
    (hlen : evs.length = 4)
    (hall : ∀ i, i < 4 → i ∈ evs.filterMap settleIdx) :
    (runTrace overallMs evs).resolution
      = some (.error (allFailedMessage (evs.filterMap failEntry))) ∧
    (runTrace overallMs evs).errors = evs.filterMap failEntry ∧
    ∀ i, i < 4 → ∃ reason, (nameOf i ++ ": " ++ reason) ∈ evs.filterMap failEntry := by
  have h := foldFailing overallMs evs initState hfail rfl rfl
    (by simp only [initState]; omega)
  rcases h with ⟨_, _, he, hr⟩
  have hne : evs ≠ [] := by
    intro h0
    rw [h0] at hlen
    simp at hlen
  refine ⟨?_, ?_, ?_⟩
  · rw [runTrace] at *
    rw [hr, if_pos ⟨by simp only [initState]; omega, hne⟩]
    simp [initState]
  · rw [runTrace] at *
    simpa [initState] using he
  · intro i hi
    have hmem := hall i hi
    rw [List.mem_filterMap] at hmem
    rcases hmem with ⟨e, hein, hidx⟩
    cases e with
    | settle j out =>
      have hj : j = i := by simpa [settleIdx] using hidx
      subst hj
      cases out with
      | ok t2 =>
        have hg : isLikelySitemapXml t2 = false := by
          simpa [isFailingSettle] using hfail _ hein
        exact ⟨"not sitemap XML", List.mem_filterMap.mpr ⟨_, hein, by simp [failEntry, hg]⟩⟩
      | error msg =>
        exact ⟨msg, List.mem_filterMap.mpr ⟨_, hein, by simp [failEntry]⟩⟩
    | overallFire => simp [settleIdx] at hidx
    | externalAbort => simp [settleIdx] at hidx

/-- Witness for C3 at a concrete race in which API rejects, Direct returns
a non-sitemap page, and AllOrigins and Jina time out. -/
theorem C3_all_failed_aggregate_witness :
    (runTrace 15000 [Ev.settle 1 (.error "HTTP 403"),
        Ev.settle 0 (.ok "<html>error page</html>"),
        Ev.settle 2 (.error "timeout after 12s"),
        Ev.settle 3 (.error "Failed to fetch")]).resolution
      = some (.error (allFailedMessage ([Ev.settle 1 (.error "HTTP 403"),
          Ev.settle 0 (.ok "<html>error page</html>"),
          Ev.settle 2 (.error "timeout after 12s"),
          Ev.settle 3 (.error "Failed to fetch")].filterMap failEntry))) :=
  (C3_all_failed_aggregate 15000 _ (by decide) (by decide) (by decide)).1

example :
    [Ev.settle 1 (.error "HTTP 403"),
     Ev.settle 0 (.ok "<html>error page</html>"),
     Ev.settle 2 (.error "timeout after 12s"),
     Ev.settle 3 (.error "Failed to fetch")].filterMap failEntry
    = ["Direct: HTTP 403", "API: not sitemap XML",
       "AllOrigins: timeout after 12s", "Jina: Failed to fetch"] := by decide

example :
    allFailedMessage ["Direct: HTTP 403", "API: not sitemap XML"]
      = "All strategies failed: Direct: HTTP 403 | API: not sitemap XML" := by decide

/-- C4 counterexample: a cancellation-shaped rejection — the kind produced
when the shared cancellation signal aborts the fetch — is NOT turned into a
distinct `Cancelled` outcome and does not keep its own message: it is
rewritten into exactly the same `timeout after Ns` failure that the
invocation's own deadline produces, so the aggregated diagnostics cannot
tell a cancelled strategy from a timed-out one. -/
theorem C4_normalization_counterexample :
    abortShaped "The operation was aborted." = true ∧
    (fetchTextWithTimeout 8000 (.rejected "The operation was aborted.")).result
      = .error "timeout after 8s" ∧
    (fetchTextWithTimeout 8000 (.rejected "The operation was aborted.")).result
      ≠ .error "The operation was aborted." ∧
    (fetchTextWithTimeout 8000 (.rejected "The operation was aborted.")).result
      = (fetchTextWithTimeout 8000 (.rejected "signal is aborted without reason")).result := by
  refine ⟨by decide, by decide, by decide, by decide⟩

/-- C4 as amended: a rejection whose message is not abort-shaped resolves to
a failure carrying that exact message; every abort-shaped rejection —
whether from the invocation's own deadline or from the shared cancellation
signal — is normalized to the single `timeout after Ns` failure message,
with no distinct `Cancelled` outcome. -/
theorem C4_normalization_amended (timeoutMs : Nat) (msg : String) :
    (abortShaped msg = false →
      (fetchTextWithTimeout timeoutMs (.rejected msg)).result = .error msg) ∧
    (abortShaped msg = true →
      (fetchTextWithTimeout timeoutMs (.rejected msg)).result
        = .error (timeoutMessage timeoutMs)) := by
  constructor
  · intro h
    simp [fetchTextWithTimeout, h]
  · intro h
    simp [fetchTextWithTimeout, h]

/-- Witness for the amended C4 at concrete messages. -/
theorem C4_normalization_amended_witness :
    abortShaped "HTTP 403" = false ∧
    (fetchTextWithTimeout 8000 (.rejected "HTTP 403")).result = .error "HTTP 403" ∧
    abortShaped "The user aborted a request." = true ∧
    (fetchTextWithTimeout 8000 (.rejected "The user aborted a request.")).result
      = .error "timeout after 8s" := by
  refine ⟨by decide, (C4_normalization_amended 8000 "HTTP 403").1 (by decide), by decide, ?_⟩
  rw [(C4_normalization_amended 8000 "The user aborted a request.").2 (by decide)]
  decide

/-- C5 counterexample: the external signal fires while no winner has been
declared (`done = false`) and no strategy has settled (`completed = 0`),
yet the race's resolved result is the overall-timeout rejection, not
`Cancelled`, because the overall deadline fired first — the claim's
precondition does not exclude this. -/
theorem C5_cancel_counterexample :
    (runTrace 15000 [Ev.overallFire]).done = false ∧
    (runTrace 15000 [Ev.overallFire]).completed = 0 ∧
    (runTrace 15000 [Ev.overallFire, Ev.externalAbort]).resolution
      = some (.error (overallTimeoutMessage 15000)) ∧
    (runTrace 15000 [Ev.overallFire, Ev.externalAbort]).resolution
      ≠ some (.error "Cancelled") := by
  refine ⟨by decide, by decide, by decide, by decide⟩

/-- C5 as amended: if the external cancellation signal fires while the race
is still unresolved — before a winner, before the all-failed rejection and
before the overall deadline has fired — the race rejects with the distinct
`Cancelled` error, which is never the overall-timeout message nor an
all-failed message, whatever is queued afterwards. -/
theorem C5_cancel_amended (overallMs : Nat) (pre post : List Ev)
    (hpending : (runTrace overallMs pre).resolution = none) :
    (runTrace overallMs (pre ++ Ev.externalAbort :: post)).resolution
      = some (.error "Cancelled") ∧
    "Cancelled" ≠ overallTimeoutMessage overallMs ∧
    ∀ errs, "Cancelled" ≠ allFailedMessage errs := by
  refine ⟨?_, ?_, ?_⟩
  · rw [runTrace_append, List.foldl_cons]
    have hstep : (step overallMs (runTrace overallMs pre) Ev.externalAbort).resolution
        = some (.error "Cancelled") := by
      simp only [step]
      exact resolveRace_of_none _ _ (by simpa using hpending)
    exact fold_preserves_some overallMs post _ _ hstep
  · exact ne_of_headChar (by rw [overallTimeoutMessage_head]; decide)
  · intro errs
    exact ne_of_headChar (by rw [allFailedMessage_head]; decide)

/-- Witness for the amended C5: the signal fires right after race start,
with a would-be-valid settlement already queued behind it. -/
theorem C5_cancel_amended_witness :
    (runTrace 15000 ([] ++ Ev.externalAbort :: [Ev.settle 0 (.ok "<urlset>")])).resolution
      = some (.error "Cancelled") ∧
    "Cancelled" ≠ overallTimeoutMessage 15000 :=
  ⟨(C5_cancel_amended 15000 [] [Ev.settle 0 (.ok "<urlset>")] rfl).1,
   (C5_cancel_amended 15000 [] [Ev.settle 0 (.ok "<urlset>")] rfl).2.1⟩

/-- C6 counterexample: a race that settles with a winner leaves the overall
deadline timer neither cleared nor fired — a dangling timer at settlement,
so not every timer is cleared on every exit path. -/
theorem C6_timer_counterexample :
    (runTrace 15000 [Ev.settle 0 (.ok "<urlset")]).resolution
      = some (.ok ⟨"API", "<urlset"⟩) ∧
    (runTrace 15000 [Ev.settle 0 (.ok "<urlset")]).overallCleared = false ∧
    (runTrace 15000 [Ev.settle 0 (.ok "<urlset")]).overallFired = false := by
  refine ⟨by decide, by decide, by decide⟩

theorem resolveRace_overallCleared (r : Except String StrategyResult) (st : RaceState) :
    (resolveRace r st).overallCleared = st.overallCleared := by
  unfold resolveRace
  split
  · rfl
  · rfl

/-- C6 as amended: every per-invocation deadline timer is cleared (and the
signal link released) when its invocation settles, through every path; the
overall deadline timer, however, is cleared only by the external-
cancellation listener — strategy settlements (including the winning one)
and the overall timer's own firing leave its cleared flag untouched, so on
the winner and all-failed paths it stays pending until it fires on its
own. -/
theorem C6_timer_amended :
    (∀ (timeoutMs : Nat) (o : FetchOutcome),
      (fetchTextWithTimeout timeoutMs o).timerCleared = true ∧
      (fetchTextWithTimeout timeoutMs o).unlinked = true) ∧
    (∀ (overallMs : Nat) (st : RaceState),
      (step overallMs st Ev.externalAbort).overallCleared = true) ∧
    (∀ (overallMs : Nat) (st : RaceState) (i : Nat) (out : Except String String),
      (step overallMs st (Ev.settle i out)).overallCleared = st.overallCleared) ∧
    (∀ (overallMs : Nat) (st : RaceState),
      (step overallMs st Ev.overallFire).overallCleared = st.overallCleared) := by
  refine ⟨?_, ?_, ?_, ?_⟩
  · intro timeoutMs o
    exact ⟨rfl, rfl⟩
  · intro overallMs st
    simp [step, resolveRace_overallCleared]
  · intro overallMs st i out
    cases out with
    | ok text =>
      simp only [step]
      split
      · rfl
      · split
        · rw [resolveRace_overallCleared]
          simp [abortRace]
        · split
          · rw [resolveRace_overallCleared]
          · rfl
    | error msg =>
      simp only [step]
      split
      · rw [resolveRace_overallCleared]
      · rfl
  · intro overallMs st
    simp only [step]
    rw [resolveRace_overallCleared]
    simp [abortRace]

/-- C7: the effective per-strategy timeout is the configured value
(defaulting to 12000 ms) raised to the 4000 ms floor, the effective overall
timeout is the configured value (defaulting to 15000 ms) raised to at least
the effective per-strategy timeout, and consequently the effective overall
timeout is always at least the effective per-strategy timeout. -/
theorem C7_timeout_clamps :
    (∀ config : FetchSitemapTextConfig,
      effPerStrategyTimeoutMs config = max 4000 (config.perStrategyTimeoutMs.getD 12000) ∧
      effOverallTimeoutMs config
        = max (effPerStrategyTimeoutMs config) (config.overallTimeoutMs.getD 15000) ∧
      4000 ≤ effPerStrategyTimeoutMs config ∧
      effPerStrategyTimeoutMs config ≤ effOverallTimeoutMs config) ∧
    effPerStrategyTimeoutMs ⟨none, none, false⟩ = 12000 ∧
    effOverallTimeoutMs ⟨none, none, false⟩ = 15000 := by
  refine ⟨fun config => ⟨rfl, rfl, le_max_left _ _, le_max_left _ _⟩, by decide, by decide⟩

/-- C8 counterexample: under the default configuration the effective
per-strategy timeout is 12000 ms, yet the Direct strategy is invoked under
a hard-coded 8000 ms deadline — the clamped per-strategy timeout is not the
deadline applied uniformly to every strategy. -/
theorem C8_uniform_deadline_counterexample :
    effPerStrategyTimeoutMs ⟨none, none, false⟩ = 12000 ∧
    (strategyDeadlines (effPerStrategyTimeoutMs ⟨none, none, false⟩)).get? 1
      = some ("Direct", 8000) ∧
    (8000 : Nat) ≠ 12000 := by
  refine ⟨by decide, by decide, by decide⟩

/-- C8 as amended: each strategy runs under its own deadline — the API
route under `min(25000, max(perStrategyTimeout, 12000))`, Direct under a
fixed 8000 ms, and only AllOrigins and Jina under the effective
per-strategy timeout itself; when a deadline fires the strategy fails with
the `timeout after Ns` reason, and the effective per-strategy timeout never
exceeds the effective overall timeout. -/
theorem C8_uniform_deadline_amended (config : FetchSitemapTextConfig) :
    (strategyDeadlines (effPerStrategyTimeoutMs config)).map Prod.fst = strategyNames ∧
    strategyDeadlines (effPerStrategyTimeoutMs config)
      = [("API", min 25000 (max (effPerStrategyTimeoutMs config) 12000)),
         ("Direct", 8000),
         ("AllOrigins", effPerStrategyTimeoutMs config),
         ("Jina", effPerStrategyTimeoutMs config)] ∧
    (fetchTextWithTimeout (effPerStrategyTimeoutMs config)
        (.rejected "The operation was aborted.")).result
      = .error (timeoutMessage (effPerStrategyTimeoutMs config)) ∧
    effPerStrategyTimeoutMs config ≤ effOverallTimeoutMs config := by
  refine ⟨rfl, rfl, ?_, le_max_left _ _⟩
  have h : abortShaped "The operation was aborted." = true := by decide
  simp [fetchTextWithTimeout, h]

/-- C9: a target that is empty or consists only of whitespace makes
`fetchSitemapTextRaced` fail immediately with the configuration error
`URL is required`: no strategy is launched, no timer is started, no
cancellation wiring is created, and the error is surfaced on its own — it
is never an all-failed aggregate. -/
theorem C9_empty_url_fails_fast (targetUrl : String) (config : FetchSitemapTextConfig)
    (events : List Ev)
    (hws : ∀ c ∈ targetUrl.data, jsWhitespace c = true) :
    fetchSitemapTextRaced targetUrl config events
      = { result := some (.error "URL is required"), launched := [],
          overallTimerStarted := false, cancellationLinked := false } ∧
    ∀ errs, "URL is required" ≠ allFailedMessage errs := by
  have h1 : targetUrl.data.dropWhile jsWhitespace = [] :=
    List.dropWhile_eq_nil_iff.mpr hws
  have htrim : jsTrimList targetUrl.data = [] := by
    simp [jsTrimList, h1]
  refine ⟨?_, ?_⟩
  · simp [fetchSitemapTextRaced, htrim]
  · intro errs
    exact ne_of_headChar (by rw [allFailedMessage_head]; decide)

/-- Witness for C9 on a whitespace-only target. -/
theorem C9_empty_url_fails_fast_witness :
    fetchSitemapTextRaced "  \t " ⟨some 9000, some 20000, true⟩
        [Ev.settle 0 (.ok "<urlset>")]
      = { result := some (.error "URL is required"), launched := [],
          overallTimerStarted := false, cancellationLinked := false } :=
  (C9_empty_url_fails_fast "  \t " ⟨some 9000, some 20000, true⟩
    [Ev.settle 0 (.ok "<urlset>")] (by decide)).1

/-- C10: every race runs exactly the four hard-coded strategies `API`,
`Direct`, `AllOrigins`, `Jina`, launched in that fixed order whenever the
target is non-empty after trimming; the launched set does not depend on the
configuration (whose type has no strategy field), and the
`No fetch strategies available` error branch is unreachable for every
input. -/
theorem C10_fixed_strategies (targetUrl : String) (config : FetchSitemapTextConfig)
    (events : List Ev) :
    (fetchSitemapTextRaced targetUrl config events).result
      ≠ some (.error "No fetch strategies available") ∧
    (fetchSitemapTextRaced targetUrl config events).launched
      = (if jsTrimList targetUrl.data = [] then []
         else ["API", "Direct", "AllOrigins", "Jina"]) := by
  constructor
  · unfold fetchSitemapTextRaced
    split_ifs with h1 h2
    · intro hc
      exact absurd hc (by decide)
    · exact absurd h2 (by decide)
    · intro hc
      simp only at hc
      have hshape := runTrace_shape (effOverallTimeoutMs config) events _ hc
      rcases hshape with ⟨errs, heq⟩ | heq | heq
      · exact absurd heq (ne_of_headChar (by rw [allFailedMessage_head]; decide))
      · exact absurd heq (ne_of_headChar (by rw [overallTimeoutMessage_head]; decide))
      · exact absurd heq (by decide)
  · unfold fetchSitemapTextRaced
    split_ifs with h1 h2
    · rfl
    · exact absurd h2 (by decide)
    · rfl

example : isLikelySitemapXml "<urlset xmlns=\"x\">" = true := by decide
example : isLikelySitemapXml "< urlset>" = true := by decide
example : isLikelySitemapXml "<sm9:sitemapindex>" = true := by decide
example : isLikelySitemapXml "<URLSET>" = true := by decide
example : isLikelySitemapXml "not sitemap XML" = false := by decide
example : isLikelySitemapXml "<urlsetx>" = false := by decide
example : isLikelySitemapXml "<html><body>urlset</body>" = false := by decide
example : abortShaped "The operation was aborted." = true := by decide
example : abortShaped "HTTP 403" = false := by decide
example : timeoutMessage 8000 = "timeout after 8s" := by decide

end SitemapRace
